import Mathlib

/-
Verification development for the Alsuper price-scraper (src/scraper/main.py).
The Python source is shallowly embedded: pure helpers become Lean functions
on character lists and rationals (decimal values are modelled exactly as
rationals), the in-page query and the polling loop become explicit
functions over abstract page/attempt inputs, and the HTTP orchestrator
becomes a state-passing function over an association-list cache.
-/

/-- Leading-segment test: `preL n h` is true when the list `n` occurs at the
very start of `h` (models Python/JS `startswith`). -/
def preL : List Char → List Char → Bool
  | [], _ => true
  | _ :: _, [] => false
  | a :: n, b :: h => a == b && preL n h

/-- Substring test: `hasSubL n h` is true when `n` occurs contiguously
anywhere inside `h` (models Python `in` and JS `includes`). -/
def hasSubL (n : List Char) : List Char → Bool
  | [] => preL n []
  | b :: t => preL n (b :: t) || hasSubL n t

/-- Strip leading and trailing whitespace (models `str.strip` / `trim`). -/
def trimL (l : List Char) : List Char :=
  ((l.dropWhile Char.isWhitespace).reverse.dropWhile Char.isWhitespace).reverse

/-- Value of a list of decimal digit characters. -/
def digitsToNat (l : List Char) : Nat :=
  l.foldl (fun n c => n * 10 + (c.toNat - 48)) 0

/-- Fractional part matched by the regex tail `(?:\.\d{1,2})?`: a dot followed
greedily by one or two digits, or nothing. -/
def readFrac (l : List Char) : List Char :=
  match l with
  | '.' :: rest =>
    match rest with
    | [] => []
    | d1 :: rest2 =>
      if d1.isDigit then
        match rest2 with
        | d2 :: _ => if d2.isDigit then [d1, d2] else [d1]
        | [] => [d1]
      else []
  | _ => []

/-- Leftmost match of the regex `(\d+(?:\.\d{1,2})?)` from `re.search` in
`_num`: skip to the first digit, take the maximal digit run, then an
optional 1-2 digit fraction.  Returns (integer digits, fraction digits). -/
def scanNum : List Char → Option (List Char × List Char)
  | [] => none
  | c :: rest =>
    if c.isDigit then
      let ds := (c :: rest).takeWhile Char.isDigit
      let tail := (c :: rest).dropWhile Char.isDigit
      some (ds, readFrac tail)
    else scanNum rest

/-- Decimal value of a matched (integer digits, fraction digits) pair,
modelled exactly as a rational: the digits over the power of ten of the
fraction length (for example ("1234","50") is 123450/100 = 1234.50). -/
def ratOfParts (p : List Char × List Char) : ℚ :=
  mkRat (digitsToNat p.1 * 10 ^ p.2.length + digitsToNat p.2) (10 ^ p.2.length)

/-- The cleaned text `_num` searches: commas and dollar signs removed
(`replace(",", "").replace("$", "")`), then stripped. -/
def cleanOf (txt : String) : List Char :=
  trimL ((txt.data.filter (fun c => c != ',')).filter (fun c => c != '$'))

/-- Numeric text parser `_num` from src/scraper/main.py: `None` for empty
input, otherwise the first regex match on the cleaned text, as a rational. -/
def _num (txt : String) : Option ℚ :=
  if txt.data.isEmpty then none
  else (scanNum (cleanOf txt)).map ratOfParts

/-- First index of a character (models Python `str.index`, which raises when
absent - modelled by `none`). -/
def idxOf (c : Char) : List Char → Option Nat
  | [] => none
  | a :: rest => if a == c then some 0 else (idxOf c rest).map (fun n => n + 1)

/-- Split a character list on commas; an empty list yields `[[]]`, matching
Python `"".split(",") == [""]`. -/
def splitComma : List Char → List (List Char)
  | [] => [[]]
  | c :: rest =>
    if c == ',' then [] :: splitComma rest
    else
      match splitComma rest with
      | h :: t => (c :: h) :: t
      | [] => [[c]]

/-- Python `int(float(s))` on a sign-free decimal string: the integer digits,
with any fractional part truncated; `none` when `float` would raise. -/
def parseUnsigned (l : List Char) : Option Nat :=
  let ip := l.takeWhile Char.isDigit
  let rest := l.dropWhile Char.isDigit
  match rest with
  | [] => if ip.isEmpty then none else some (digitsToNat ip)
  | '.' :: rest2 =>
    let fp := rest2.takeWhile Char.isDigit
    let rest3 := rest2.dropWhile Char.isDigit
    if rest3.isEmpty && !(ip.isEmpty && fp.isEmpty) then some (digitsToNat ip)
    else none
  | _ => none

/-- Python `int(float(s))` on an optionally signed decimal string
(truncation toward zero). -/
def parseChannel (l : List Char) : Option Int :=
  match l with
  | '+' :: rest => (parseUnsigned rest).map (fun n => (n : Int))
  | '-' :: rest => (parseUnsigned rest).map (fun n => -(n : Int))
  | _ => (parseUnsigned l).map (fun n => (n : Int))

/-- The `try` block of `_color_is_red_or_black`: slice between the first
`(` and the first `)`, split on commas, and parse the first three entries
as channel values; `none` models the swallowed exception. -/
def rgbParse (s : List Char) : Option (Int × Int × Int) :=
  match idxOf '(' s, idxOf ')' s with
  | some i, some j =>
    let inner := (s.drop (i + 1)).take (j - (i + 1))
    (match splitComma inner with
     | a :: b :: c :: _ =>
       (match parseChannel a, parseChannel b, parseChannel c with
        | some r, some g, some bl => some (r, g, bl)
        | _, _, _ => none)
     | _ => none)
  | _, _ => none

/-- Normalisation at the head of `_color_is_red_or_black`:
`.lower().replace(" ", "")`. -/
def normColor (l : List Char) : List Char :=
  (l.map Char.toLower).filter (fun c => c != ' ')

/-- The hex / keyword checks reached when the rgb branch falls through. -/
def colorTail (s : List Char) : Option String :=
  if s == "#000".data || s == "#000000".data then some "black"
  else if s == "#f00".data || s == "#ff0000".data then some "red"
  else if hasSubL ("black".data) s then some "black"
  else if hasSubL ("red".data) s then some "red"
  else none

/-- Color classifier `_color_is_red_or_black` from src/scraper/main.py. -/
def _color_is_red_or_black (color_str : String) : Option String :=
  let s := normColor color_str.data
  if preL ("rgb".data) s then
    match rgbParse s with
    | none => none
    | some (r, g, b) =>
      if r ≤ 10 ∧ g ≤ 10 ∧ b ≤ 10 then some "black"
      else if r ≥ 180 ∧ g ≤ 60 ∧ b ≤ 60 then some "red"
      else colorTail s
  else colorTail s

/-- Spec-literal tail of the color decision table of section 4.2: exact hex
matches, then substring keyword matches, else none. -/
def specColorTail (s : List Char) : Option String :=
  if s == "#000".data || s == "#000000".data then some "black"
  else if s == "#f00".data || s == "#ff0000".data then some "red"
  else if hasSubL ("black".data) s then some "black"
  else if hasSubL ("red".data) s then some "red"
  else none

/-- Spec-literal color decision table of section 4.2, written from the
claim text, with NO input normalisation: rgb threshold tests (unparseable
numeric forms yield none), exact hex strings, keyword substrings, else
none.  The code is compared against this table in the C6 theorems. -/
def specColorTable (s : List Char) : Option String :=
  if preL ("rgb".data) s then
    match rgbParse s with
    | none => none
    | some (r, g, b) =>
      if r ≤ 10 ∧ g ≤ 10 ∧ b ≤ 10 then some "black"
      else if r ≥ 180 ∧ g ≤ 60 ∧ b ≤ 60 then some "red"
      else specColorTail s
  else specColorTail s

/-- Case-folded concatenation `(url + " " + page_text).lower()` used by
`_guess_units`. -/
def lowcat (url page_text : String) : List Char :=
  ((url ++ " " ++ page_text).data).map Char.toLower

/-- First rule condition of `_guess_units` (six-pack markers). -/
def unitRule1 (low : List Char) : Bool :=
  hasSubL ("cerveza-six-pack".data) low || hasSubL ("six pack".data) low ||
    hasSubL ("six-pack".data) low

/-- Second rule condition of `_guess_units` (cans / juices). -/
def unitRule2 (low : List Char) : Bool :=
  hasSubL ("nectar-mixto".data) low || hasSubL ("v8".data) low ||
    hasSubL ("lata".data) low

/-- Third rule condition of `_guess_units` (per-kilogram products). -/
def unitRule3 (low : List Char) : Bool :=
  hasSubL ("kg".data) low || hasSubL ("kilo".data) low ||
    hasSubL ("pulpa-de-res".data) low || hasSubL ("jamon-de-pierna".data) low ||
    hasSubL ("tocineta".data) low || hasSubL ("cebolla".data) low

/-- Unit/pack inference heuristic `_guess_units` from src/scraper/main.py:
ordered keyword rules over the case-folded URL + page text, first match
wins. -/
def _guess_units (url page_text : String) : String × Option Nat × Option Nat :=
  let low := lowcat url page_text
  if unitRule1 low then ("six-pack", some 6, none)
  else if unitRule2 low then ("lata", some 1, none)
  else if unitRule3 low then ("kg", none, none)
  else if hasSubL ("chorizo".data) low then ("pieza", some 1, some 100)
  else if hasSubL ("salchicha".data) low || hasSubL ("salchichas".data) low then
    ("paquete", some 1, some 800)
  else if hasSubL ("paquete".data) low then ("paquete", some 1, some 800)
  else ("pieza", some 1, none)

/-- The ordered decision table of section 4.6, written from the spec text:
predicate/result pairs evaluated in order, first match wins.  The default
(rule 7) is passed separately. -/
def specUnitRules :
    List ((List Char → Bool) × (String × Option Nat × Option Nat)) :=
  [ (fun low => hasSubL ("six-pack".data) low || hasSubL ("six pack".data) low,
      ("six-pack", some 6, none)),
    (fun low => hasSubL ("nectar-mixto".data) low || hasSubL ("v8".data) low ||
      hasSubL ("lata".data) low, ("lata", some 1, none)),
    (fun low => hasSubL ("kg".data) low || hasSubL ("kilo".data) low ||
      hasSubL ("pulpa-de-res".data) low || hasSubL ("jamon-de-pierna".data) low ||
      hasSubL ("tocineta".data) low || hasSubL ("cebolla".data) low,
      ("kg", none, none)),
    (fun low => hasSubL ("chorizo".data) low, ("pieza", some 1, some 100)),
    (fun low => hasSubL ("salchicha".data) low || hasSubL ("salchichas".data) low,
      ("paquete", some 1, some 800)),
    (fun low => hasSubL ("paquete".data) low, ("paquete", some 1, some 800)) ]

/-- Evaluate an ordered decision table: the result of the first rule whose
predicate holds, else the default. -/
def firstMatch (rules : List ((List Char → Bool) × (String × Option Nat × Option Nat)))
    (dflt : String × Option Nat × Option Nat) (low : List Char) :
    String × Option Nat × Option Nat :=
  match rules with
  | [] => dflt
  | (p, r) :: rest => if p low then r else firstMatch rest dflt low

/-- One price candidate as produced by the in-page query FIND_PRICE_JS:
the selector that matched, the trimmed text, the computed color string and
the strikethrough flag. -/
structure Cand where
  selector : String
  text : String
  color : String
  struck : Bool
  deriving DecidableEq

/-- The filtering loop inside `get_price` (lines 197-207): drop struck
candidates, drop candidates whose color classifies to neither red nor
black, parse the text and keep the candidate only when `if val:` is truthy,
i.e. the parse produced a value other than 0. -/
def filterStep : List Cand → List (Cand × String × ℚ)
  | [] => []
  | it :: rest =>
    if it.struck then filterStep rest
    else
      match _color_is_red_or_black it.color with
      | none => filterStep rest
      | some colorType =>
        match _num it.text with
        | none => filterStep rest
        | some val =>
          if val ≠ 0 then (it, colorType, val) :: filterStep rest
          else filterStep rest

/-- The pick of `get_price` (lines 209-211): first red survivor if any,
else first black survivor, else none. -/
def codePick (l : List Cand) : Option (Cand × String × ℚ) :=
  let filtered := filterStep l
  let red_first := filtered.filter (fun x => x.2.1 == "red")
  let black_next := filtered.filter (fun x => x.2.1 == "black")
  match red_first with
  | r :: _ => some r
  | [] =>
    match black_next with
    | b :: _ => some b
    | [] => none

/-- Spec pipeline step 1: discard struck candidates. -/
def specStep1 (l : List Cand) : List Cand :=
  l.filter (fun c => !c.struck)

/-- Spec pipeline step 2: classify colors, discarding candidates that
classify to none. -/
def specStep2 (l : List Cand) : List (Cand × String) :=
  l.filterMap (fun c => (_color_is_red_or_black c.color).map (fun ct => (c, ct)))

/-- Spec pipeline step 3 as the claim states it: discard candidates whose
text yields no numeric value (a parsed value of 0 survives). -/
def specStep3orig (l : List (Cand × String)) : List (Cand × String × ℚ) :=
  l.filterMap (fun p => (_num p.1.text).map (fun v => (p.1, p.2, v)))

/-- Spec pipeline step 3, amended: also discard candidates whose parsed
value is 0, matching the truthiness test in the code. -/
def specStep3amended (l : List (Cand × String)) : List (Cand × String × ℚ) :=
  l.filterMap (fun p =>
    match _num p.1.text with
    | some v => if v ≠ 0 then some (p.1, p.2, v) else none
    | none => none)

/-- Spec pipeline steps 4-5: partition survivors into red and black groups
preserving order, pick the first red if any, else the first black. -/
def pickFrom (l : List (Cand × String × ℚ)) : Option (Cand × String × ℚ) :=
  match l.filter (fun x => x.2.1 == "red") with
  | r :: _ => some r
  | [] =>
    match l.filter (fun x => x.2.1 == "black") with
    | b :: _ => some b
    | [] => none

/-- The five-step reference pipeline exactly as the claim states it. -/
def specPickOrig (l : List Cand) : Option (Cand × String × ℚ) :=
  pickFrom (specStep3orig (specStep2 (specStep1 l)))

/-- The five-step reference pipeline with the amended step 3. -/
def specPickAmended (l : List Cand) : Option (Cand × String × ℚ) :=
  pickFrom (specStep3amended (specStep2 (specStep1 l)))

/-- One rendered DOM element as observed by FIND_PRICE_JS: its text
content, computed color, and computed text-decoration string. -/
structure Elem where
  text : String
  color : String
  tdec : String
  deriving DecidableEq

/-- `isStruck` from FIND_PRICE_JS: the lower-cased computed text-decoration
contains the word line-through. -/
def isStruckE (el : Elem) : Bool :=
  hasSubL ("line-through".data) (el.tdec.data.map Char.toLower)

/-- Whitespace run then digit, after a dollar sign. -/
def afterDollar : List Char → Bool
  | [] => false
  | c :: rest =>
    if c.isDigit then true
    else if c.isWhitespace then afterDollar rest
    else false

/-- `hasDollarDigits` from FIND_PRICE_JS: the regex test `\$\s*\d`, a
dollar sign followed by optional whitespace and then a digit, anywhere in
the text. -/
def hasDollarDigits : List Char → Bool
  | [] => false
  | c :: rest => (c == '$' && afterDollar rest) || hasDollarDigits rest

/-- The qualifying test exactly as the claim words it: a currency symbol
IMMEDIATELY followed by a digit. -/
def dollarImmediate : List Char → Bool
  | [] => false
  | c :: rest =>
    (c == '$' && (match rest with | d :: _ => d.isDigit | [] => false)) ||
      dollarImmediate rest

/-- The per-selector collection step of FIND_PRICE_JS: for each element
matching the selector, trim its text and keep it when the trimmed text
passes `hasDollarDigits`, recording selector, text, color and struck flag.
The page is abstracted as a map from selector to its matched elements in
DOM order. -/
def collectSel (page : String → List Elem) (sel : String) : List Cand :=
  (page sel).filterMap (fun el =>
    let txt := trimL el.text.data
    if hasDollarDigits txt then
      some { selector := sel, text := String.mk txt, color := el.color,
             struck := isStruckE el }
    else none)

/-- The selector loop of FIND_PRICE_JS: walk the selector list in order,
and stop at the first selector whose collected list is non-empty. -/
def locate (page : String → List Elem) : List String → List Cand
  | [] => []
  | sel :: rest =>
    let out := collectSel page sel
    if out.isEmpty then locate page rest else out

/-- The locator contract as the spec describes it: the collected elements
of the first selector (in priority order) yielding at least one qualifying
element, else nothing. -/
def specLocate (page : String → List Elem) (sels : List String) : List Cand :=
  match sels.find? (fun s => !(collectSel page s).isEmpty) with
  | some s => collectSel page s
  | none => []

/-- PRICE_SELECTORS from src/scraper/main.py (class-attribute quotes are
written with the \x27 escape). -/
def PRICE_SELECTORS : List String :=
  [ "mat-label.as-discount-price.as-font-red-blood",
    "mat-label.as-price.as-font-red-blood",
    "[class*=\x27as-discount-price\x27][class*=\x27as-font-red\x27]",
    "[class*=\x27as-price\x27][class*=\x27as-font-red\x27]",
    "mat-label.as-price",
    "[class*=\x27as-price\x27]",
    "h1 + * [class*=\x27as-price\x27]",
    "h1 ~ * [class*=\x27as-price\x27]" ]

/-- Terminal states of the polling retry controller: a picked value, or a
timeout carrying the clock value at exit. -/
inductive PollOutcome where
  | Found (v : ℚ)
  | TimedOut (t : Nat)
  deriving DecidableEq

/-- Fueled unfolding of the polling loop of `get_price` (lines 191-218),
clock in milliseconds.  Each iteration: if the deadline has not passed,
run attempt `i` (an exception, no pick, or a pick); a pick stops the loop
at Found; otherwise wait 350 ms plus the attempt duration `adv i` and
repeat.  The fuel only bounds the recursion; `pollE` instantiates it so
that the bound is never the reason the loop stops. -/
def pollIter (att : Nat → Except Unit (Option ℚ)) (adv : Nat → Nat) (d : Nat) :
    Nat → Nat → Nat → PollOutcome
  | 0, _, now => PollOutcome.TimedOut now
  | fuel + 1, i, now =>
    if now < d then
      match att i with
      | Except.ok (some v) => PollOutcome.Found v
      | Except.ok none => pollIter att adv d fuel (i + 1) (now + 350 + adv i)
      | Except.error _ => pollIter att adv d fuel (i + 1) (now + 350 + adv i)
    else PollOutcome.TimedOut now

/-- The polling retry controller: `while time.time() < deadline` with the
350 ms wait, starting at attempt index `i` and clock `now`, with deadline
`d`.  Since every iteration advances the clock by at least 350 ms, `d - now`
iterations always suffice, and the loop-unfolding equation `pollE_eq` below
shows the fuel is invisible. -/
def pollE (att : Nat → Except Unit (Option ℚ)) (adv : Nat → Nat)
    (d i now : Nat) : PollOutcome :=
  pollIter att adv d (d - now) i now

/-- Exception squashing: the value a polling attempt contributes once the
`except Exception: pass` has run - an exception is no pick. -/
def exSquash : Except Unit (Option ℚ) → Option ℚ
  | Except.ok o => o
  | Except.error _ => none

/-- The response record assembled by `get_price` (PriceResponse model). -/
structure PriceResp where
  url : String
  product_name : Option String
  price_per_kg : Option ℚ
  unit_price : Option ℚ
  unit_pack_size : Option Nat
  unit_weight_g : Option Nat
  currency : String
  raw_unit : Option String
  deriving DecidableEq

/-- Lines 241-261 of src/scraper/main.py: unit assignment and record
assembly.  `price_per_kg` receives the picked value when the unit is kg,
otherwise `unit_price` does. -/
def mkResponse (url : String) (name : Option String) (price_val : ℚ)
    (unit : String) (pack wt : Option Nat) : PriceResp :=
  { url := url
    product_name := name
    price_per_kg := if unit == "kg" then some price_val else none
    unit_price := if unit == "kg" then none else some price_val
    unit_pack_size := pack
    unit_weight_g := wt
    currency := "MXN"
    raw_unit := some unit }

/-- The claimed record invariant: exactly one of price_per_kg / unit_price
is set, and price_per_kg is the one set exactly when the raw unit is kg. -/
def respInv (r : PriceResp) : Prop :=
  ((r.price_per_kg ≠ none ∧ r.unit_price = none) ∨
    (r.price_per_kg = none ∧ r.unit_price ≠ none)) ∧
  (r.price_per_kg ≠ none ↔ r.raw_unit = some "kg")

/-- Association-list lookup for the TTL cache, keyed by exact URL. -/
def lookupA : List (String × PriceResp) → String → Option PriceResp
  | [], _ => none
  | (k, v) :: rest, url => if k == url then some v else lookupA rest url

/-- The external world of one `get_price` call: whether navigation fails
(and with what message), the best-effort product name, the raw candidate
list produced by each polling attempt (or the exception it raised), each
attempt's extra duration, the start clock, and the body text (none models
the swallowed exception, which the code turns into the empty string). -/
structure World where
  navFails : Bool
  navErr : String
  name : Option String
  attempts : Nat → Except Unit (List Cand)
  adv : Nat → Nat
  startTime : Nat
  pageText : Option String

/-- One polling attempt of `get_price`: evaluate FIND_PRICE_JS (here the
abstract raw list), filter and pick; the attempt yields the picked value. -/
def attFun (w : World) : Nat → Except Unit (Option ℚ) :=
  fun i =>
    match w.attempts i with
    | Except.error e => Except.error e
    | Except.ok l => Except.ok ((codePick l).map (fun x => x.2.2))

/-- The fixed HTTP 500 diagnostic of line 231. -/
def notFoundMsg : String :=
  "No se encontró precio visible no tachado con \x27$\x27 (rojo/negro) usando selectores de Alsuper."

/-- The record assembled on the success path of `get_price`: the body
text (empty when its extraction raised), the unit heuristic, and the
response record carrying the picked value. -/
def successResp (url : String) (w : World) (v : ℚ) : PriceResp :=
  let ptext := match w.pageText with | some t => t | none => ""
  let u := _guess_units url ptext
  mkResponse url w.name v u.1 u.2.1 u.2.2

/-- The `get_price` orchestrator as a cache-state transformer: cache hit
short-circuits; navigation failure is a 502 naming the URL; a polling
timeout is a 500 with the fixed message; otherwise the unit heuristic runs
on the URL and page text and the assembled record is stored under the URL
key and returned. -/
def getPriceModel (cache : List (String × PriceResp)) (url : String)
    (w : World) : Except (Nat × String) PriceResp × List (String × PriceResp) :=
  match lookupA cache url with
  | some r => (Except.ok r, cache)
  | none =>
    if w.navFails then
      (Except.error (502, "No se pudo cargar " ++ url ++ ": " ++ w.navErr), cache)
    else
      match pollE (attFun w) w.adv (w.startTime + 18000) 0 w.startTime with
      | PollOutcome.TimedOut _ => (Except.error (500, notFoundMsg), cache)
      | PollOutcome.Found v =>
        (Except.ok (successResp url w v), (url, successResp url w v) :: cache)

/-- Characterisation of the leading-segment test. -/
theorem preL_iff (n h : List Char) : preL n h = true ↔ ∃ q, h = n ++ q := by
  induction n generalizing h with
  | nil => simp [preL]
  | cons a n ih =>
    cases h with
    | nil => simp [preL]
    | cons b t =>
      simp only [preL, Bool.and_eq_true, beq_iff_eq, ih, List.cons_append,
        List.cons.injEq]
      constructor
      · rintro ⟨hab, q, hq⟩
        exact ⟨q, hab.symm, hq⟩
      · rintro ⟨q, hba, hq⟩
        exact ⟨hba.symm, q, hq⟩

/-- Characterisation of the substring test. -/
theorem hasSubL_iff (n h : List Char) :
    hasSubL n h = true ↔ ∃ p q, h = p ++ (n ++ q) := by
  induction h with
  | nil =>
    simp only [hasSubL, preL_iff]
    constructor
    · rintro ⟨q, hq⟩
      exact ⟨[], q, by simpa using hq⟩
    · rintro ⟨p, q, hq⟩
      rcases List.append_eq_nil.mp hq.symm with ⟨hp, hnq⟩
      exact ⟨q, by simp [hnq]⟩
  | cons b t ih =>
    simp only [hasSubL, Bool.or_eq_true, preL_iff, ih]
    constructor
    · rintro (⟨q, hq⟩ | ⟨p, q, hq⟩)
      · exact ⟨[], q, by simpa using hq⟩
      · exact ⟨b :: p, q, by simp [hq]⟩
    · rintro ⟨p, q, hq⟩
      cases p with
      | nil => exact Or.inl ⟨q, by simpa using hq⟩
      | cons x p =>
        simp only [List.cons_append, List.cons.injEq] at hq
        exact Or.inr ⟨p, q, hq.2⟩

/-- Substring is transitive. -/
theorem hasSubL_trans {a b c : List Char} (h1 : hasSubL a b = true)
    (h2 : hasSubL b c = true) : hasSubL a c = true := by
  rw [hasSubL_iff] at h1 h2 ⊢
  obtain ⟨p, q, rfl⟩ := h1
  obtain ⟨r, s, rfl⟩ := h2
  exact ⟨r ++ p, q ++ s, by simp⟩

/-- A substring of `h` is a substring of `h ++ t`. -/
theorem hasSubL_append_right {n h : List Char} (t : List Char)
    (h1 : hasSubL n h = true) : hasSubL n (h ++ t) = true := by
  rw [hasSubL_iff] at h1 ⊢
  obtain ⟨p, q, rfl⟩ := h1
  exact ⟨p, q ++ t, by simp⟩

/-- Mapping a function over both lists preserves the substring relation. -/
theorem hasSubL_map (f : Char → Char) {n h : List Char}
    (h1 : hasSubL n h = true) : hasSubL (n.map f) (h.map f) = true := by
  rw [hasSubL_iff] at h1 ⊢
  obtain ⟨p, q, rfl⟩ := h1
  exact ⟨p.map f, q.map f, by simp⟩

/-- A lower-case-stable substring of the URL is a substring of the
case-folded URL + page-text concatenation. -/
theorem hasSubL_lowcat_of_url {n : List Char} (url text : String)
    (hlow : n.map Char.toLower = n) (h : hasSubL n url.data = true) :
    hasSubL n (lowcat url text) = true := by
  have hdata : (url ++ " " ++ text).data = (url.data ++ " ".data) ++ text.data := by
    rw [String.data_append, String.data_append]
  have h2 : hasSubL n ((url.data ++ " ".data) ++ text.data) = true :=
    hasSubL_append_right _ (hasSubL_append_right _ h)
  have h3 := hasSubL_map Char.toLower h2
  rw [hlow] at h3
  rw [lowcat, hdata]
  exact h3

/-- The fuel of `pollIter` is invisible as long as it dominates the
remaining time `d - now`: each iteration advances the clock by at least
350 ms, so `d - now` iterations always reach the deadline. -/
theorem pollIter_fuel (att : Nat → Except Unit (Option ℚ)) (adv : Nat → Nat)
    (d : Nat) : ∀ k1 k2 i now, d - now ≤ k1 → d - now ≤ k2 →
    pollIter att adv d k1 i now = pollIter att adv d k2 i now := by
  intro k1
  induction k1 with
  | zero =>
    intro k2 i now h1 h2
    have hnow : ¬now < d := by omega
    cases k2 with
    | zero => rfl
    | succ k => simp [pollIter, hnow]
  | succ k ih =>
    intro k2 i now h1 h2
    by_cases hnow : now < d
    · cases k2 with
      | zero => omega
      | succ k2 =>
        simp only [pollIter, if_pos hnow]
        cases hatt : att i with
        | ok o =>
          cases o with
          | some v => rfl
          | none => exact ih k2 (i + 1) (now + 350 + adv i) (by omega) (by omega)
        | error e => exact ih k2 (i + 1) (now + 350 + adv i) (by omega) (by omega)
    · cases k2 with
      | zero => simp [pollIter, hnow]
      | succ k2 => simp [pollIter, hnow]

/-- Loop-unfolding equation for the polling controller: it satisfies
exactly the recursion of the `while time.time() < deadline` loop. -/
theorem pollE_eq (att : Nat → Except Unit (Option ℚ)) (adv : Nat → Nat)
    (d i now : Nat) :
    pollE att adv d i now =
      if now < d then
        match att i with
        | Except.ok (some v) => PollOutcome.Found v
        | Except.ok none => pollE att adv d (i + 1) (now + 350 + adv i)
        | Except.error _ => pollE att adv d (i + 1) (now + 350 + adv i)
      else PollOutcome.TimedOut now := by
  unfold pollE
  cases hf : d - now with
  | zero =>
    have hnow : ¬now < d := by omega
    simp [pollIter, hnow]
  | succ k =>
    have hnow : now < d := by omega
    simp only [pollIter, if_pos hnow]
    cases hatt : att i with
    | ok o =>
      cases o with
      | some v => rfl
      | none => exact pollIter_fuel att adv d k _ (i + 1) _ (by omega) (by omega)
    | error e => exact pollIter_fuel att adv d k _ (i + 1) _ (by omega) (by omega)

/-- If no attempt ever yields a pick, the polling controller always ends
in TimedOut, at a clock value at or after the deadline. -/
theorem pollE_timeout (att : Nat → Except Unit (Option ℚ)) (adv : Nat → Nat)
    (d : Nat) (h : ∀ i v, att i ≠ Except.ok (some v)) (i now : Nat) :
    ∃ t, pollE att adv d i now = PollOutcome.TimedOut t ∧ d ≤ t := by
  unfold pollE
  have main : ∀ fuel i now, d - now ≤ fuel →
      ∃ t, pollIter att adv d fuel i now = PollOutcome.TimedOut t ∧ d ≤ t := by
    intro fuel
    induction fuel with
    | zero =>
      intro i now hle
      exact ⟨now, rfl, by omega⟩
    | succ k ih =>
      intro i now hle
      by_cases hnow : now < d
      · simp only [pollIter, if_pos hnow]
        cases hatt : att i with
        | ok o =>
          cases o with
          | some v => exact absurd hatt (h i v)
          | none => exact ih (i + 1) (now + 350 + adv i) (by omega)
        | error e => exact ih (i + 1) (now + 350 + adv i) (by omega)
      · exact ⟨now, by simp [pollIter, hnow], by omega⟩
  exact main (d - now) i now (by omega)

/-- Swallowed exceptions: the polling controller behaves identically when
every attempt's exception is replaced by "no pick". -/
theorem pollE_squash (att : Nat → Except Unit (Option ℚ)) (adv : Nat → Nat)
    (d i now : Nat) :
    pollE att adv d i now =
      pollE (fun j => Except.ok (exSquash (att j))) adv d i now := by
  unfold pollE
  have main : ∀ fuel i now,
      pollIter att adv d fuel i now =
        pollIter (fun j => Except.ok (exSquash (att j))) adv d fuel i now := by
    intro fuel
    induction fuel with
    | zero => intro i now; rfl
    | succ k ih =>
      intro i now
      by_cases hnow : now < d
      · simp only [pollIter, if_pos hnow]
        cases hatt : att i with
        | ok o =>
          cases o with
          | some v => simp [hatt, exSquash]
          | none => simp [hatt, exSquash, ih]
        | error e => simp [hatt, exSquash, ih]
      · simp [pollIter, hnow]
  exact main (d - now) i now

/-- Unfolding of the scan at a digit. -/
theorem scanNum_cons_digit {c : Char} (rest : List Char) (hc : c.isDigit = true) :
    scanNum (c :: rest) =
      some ((c :: rest).takeWhile Char.isDigit,
        readFrac ((c :: rest).dropWhile Char.isDigit)) := by
  rw [scanNum, if_pos hc]

/-- Unfolding of the scan at a non-digit. -/
theorem scanNum_cons_nondigit {c : Char} (rest : List Char)
    (hc : c.isDigit = false) : scanNum (c :: rest) = scanNum rest := by
  rw [scanNum, if_neg (by simp [hc])]

/-- The regex scan fails exactly when the text has no digit at all. -/
theorem scanNum_none_iff (l : List Char) :
    scanNum l = none ↔ ∀ c ∈ l, c.isDigit = false := by
  induction l with
  | nil => simp [scanNum]
  | cons c rest ih =>
    by_cases hc : c.isDigit = true
    · rw [scanNum_cons_digit rest hc]
      simp only [List.mem_cons]
      constructor
      · intro h
        cases h
      · intro h
        exact absurd hc (by simp [h c (Or.inl rfl)])
    · have hc2 : c.isDigit = false := by simpa using hc
      rw [scanNum_cons_nondigit rest hc2]
      simp [ih, hc2]

/-- Matched decimal values are nonnegative. -/
theorem ratOfParts_nonneg (p : List Char × List Char) : 0 ≤ ratOfParts p := by
  unfold ratOfParts
  rw [Rat.mkRat_eq_div]
  positivity

/-- Any value returned by the numeric parser is nonnegative (the regex has
no sign). -/
theorem _num_nonneg {s : String} {v : ℚ} (h : _num s = some v) : 0 ≤ v := by
  unfold _num at h
  by_cases he : s.data.isEmpty
  · rw [if_pos he] at h
    cases h
  · rw [if_neg he] at h
    cases hscan : scanNum (cleanOf s) with
    | none =>
      rw [hscan] at h
      cases h
    | some p =>
      rw [hscan] at h
      simp only [Option.map_some', Option.some.injEq] at h
      rw [← h]
      exact ratOfParts_nonneg p

/-- The filtering loop equals the spec pipeline steps 1-3 with the amended
numeric filter (discarding parse failures and zero values). -/
theorem filterStep_eq (l : List Cand) :
    filterStep l = specStep3amended (specStep2 (specStep1 l)) := by
  induction l with
  | nil => rfl
  | cons it rest ih =>
    by_cases hs : it.struck
    · simp [filterStep, hs, specStep1, specStep2, specStep3amended, ih,
        List.filter_cons]
    · cases hc : _color_is_red_or_black it.color with
      | none =>
        simp [filterStep, hs, hc, specStep1, specStep2, specStep3amended, ih,
          List.filter_cons]
      | some ct =>
        cases hn : _num it.text with
        | none =>
          simp [filterStep, hs, hc, hn, specStep1, specStep2, specStep3amended,
            ih, List.filter_cons]
        | some v =>
          by_cases hv : v = 0
          · simp [filterStep, hs, hc, hn, hv, specStep1, specStep2,
              specStep3amended, ih, List.filter_cons]
          · simp [filterStep, hs, hc, hn, hv, specStep1, specStep2,
              specStep3amended, ih, List.filter_cons]

/-- Every survivor of the filtering loop is non-struck, carries its own
color class and the parsed value of its own text, and that value is not
zero. -/
theorem filterStep_mem {l : List Cand} {x : Cand × String × ℚ}
    (h : x ∈ filterStep l) :
    x.1.struck = false ∧ _color_is_red_or_black x.1.color = some x.2.1 ∧
      _num x.1.text = some x.2.2 ∧ x.2.2 ≠ 0 := by
  induction l with
  | nil => simp [filterStep] at h
  | cons it rest ih =>
    rw [filterStep] at h
    by_cases hs : it.struck
    · rw [if_pos hs] at h
      exact ih h
    · rw [if_neg hs] at h
      cases hc : _color_is_red_or_black it.color with
      | none =>
        rw [hc] at h
        exact ih h
      | some ct =>
        rw [hc] at h
        cases hn : _num it.text with
        | none =>
          rw [hn] at h
          exact ih h
        | some v =>
          rw [hn] at h
          have h2 : x ∈ (if v ≠ 0 then (it, ct, v) :: filterStep rest
              else filterStep rest) := h
          by_cases hv : v ≠ 0
          · rw [if_pos hv] at h2
            rcases List.mem_cons.mp h2 with rfl | hmem
            · exact ⟨by simpa using hs, hc, hn, hv⟩
            · exact ih hmem
          · rw [if_neg hv] at h2
            exact ih h2

/-- A pick always comes from the filtered list. -/
theorem codePick_mem {l : List Cand} {x : Cand × String × ℚ}
    (h : codePick l = some x) : x ∈ filterStep l := by
  have h2 : (match (filterStep l).filter (fun x => x.2.1 == "red") with
      | r :: _ => some r
      | [] =>
        match (filterStep l).filter (fun x => x.2.1 == "black") with
        | b :: _ => some b
        | [] => none) = some x := h
  cases hr : (filterStep l).filter (fun x => x.2.1 == "red") with
  | cons r tl =>
    rw [hr] at h2
    simp only [Option.some.injEq] at h2
    subst h2
    exact List.mem_of_mem_filter (hr ▸ List.mem_cons_self r tl)
  | nil =>
    rw [hr] at h2
    cases hb : (filterStep l).filter (fun x => x.2.1 == "black") with
    | cons b tl =>
      rw [hb] at h2
      simp only [Option.some.injEq] at h2
      subst h2
      exact List.mem_of_mem_filter (hb ▸ List.mem_cons_self b tl)
    | nil =>
      rw [hb] at h2
      cases h2

/-- The first rule condition of the code equals the spec's rule-1
predicate: the extra cerveza-six-pack marker is subsumed by the six-pack
marker it contains. -/
theorem rule1_or (low : List Char) :
    unitRule1 low =
      (hasSubL ("six-pack".data) low || hasSubL ("six pack".data) low) := by
  unfold unitRule1
  cases hc : hasSubL ("cerveza-six-pack".data) low with
  | false => simp [Bool.or_comm]
  | true =>
    have h1 : hasSubL ("six-pack".data) ("cerveza-six-pack".data) = true := by
      decide
    have h2 := hasSubL_trans h1 hc
    simp [h2]

/-- The selector loop equals the spec's first-qualifying-selector rule. -/
theorem locate_eq_spec (page : String → List Elem) (sels : List String) :
    locate page sels = specLocate page sels := by
  induction sels with
  | nil => rfl
  | cons sel rest ih =>
    by_cases h : (collectSel page sel).isEmpty
    · simp [locate, specLocate, h, List.find?, ih]
    · simp [locate, specLocate, h, List.find?]

/-- Everything the locator reports passed the dollar-digit test on its own
(trimmed) text. -/
theorem locate_mem {page : String → List Elem} {sels : List String} {c : Cand}
    (h : c ∈ locate page sels) : hasDollarDigits c.text.data = true := by
  induction sels with
  | nil => simp [locate] at h
  | cons sel rest ih =>
    rw [locate] at h
    by_cases he : (collectSel page sel).isEmpty
    · rw [if_pos he] at h
      exact ih h
    · rw [if_neg he] at h
      obtain ⟨el, _, hel⟩ := List.mem_filterMap.mp h
      by_cases hd : hasDollarDigits (trimL el.text.data)
      · rw [if_pos hd] at hel
        simp only [Option.some.injEq] at hel
        rw [← hel]
        exact hd
      · rw [if_neg hd] at hel
        cases hel

/-- The immediate form of the qualifying test implies the code's
whitespace-tolerant form. -/
theorem dollarImmediate_implies (t : List Char)
    (h : dollarImmediate t = true) : hasDollarDigits t = true := by
  induction t with
  | nil => cases h
  | cons c rest ih =>
    show ((c == '$' && afterDollar rest) || hasDollarDigits rest) = true
    cases rest with
    | nil =>
      have h2 : ((c == '$' && false) || false) = true := h
      simp at h2
    | cons d rest2 =>
      have h2 : ((c == '$' && d.isDigit) || dollarImmediate (d :: rest2)) =
          true := h
      rcases Bool.or_eq_true_iff.mp h2 with h1 | h3
      · rcases Bool.and_eq_true_iff.mp h1 with ⟨hd, hm⟩
        have ha : afterDollar (d :: rest2) = true := by
          show (if d.isDigit then true
            else if d.isWhitespace then afterDollar rest2 else false) = true
          rw [if_pos hm]
        simp [hd, ha]
      · simp [ih h3]

/-- A cache lookup returns a stored value. -/
theorem lookupA_mem {cache : List (String × PriceResp)} {url : String}
    {r : PriceResp} (h : lookupA cache url = some r) :
    ∃ k, (k, r) ∈ cache := by
  induction cache with
  | nil => cases h
  | cons p rest ih =>
    obtain ⟨k, v⟩ := p
    rw [lookupA] at h
    by_cases hk : k == url
    · rw [if_pos hk] at h
      simp only [Option.some.injEq] at h
      exact ⟨k, by simp [h]⟩
    · rw [if_neg hk] at h
      obtain ⟨k2, hk2⟩ := ih h
      exact ⟨k2, List.mem_cons_of_mem _ hk2⟩

/-- C5: the numeric text parser strips thousands separators and currency
symbols, matches the first `digits[.digits(1-2)]` run of the cleaned text,
and returns it as a decimal number (modelled exactly as a rational); it is
a total Lean function, so no exception is possible; it returns no value
exactly when the cleaned text contains no digit at all (in particular for
empty, whitespace-only or non-numeric input).  Examples: "$1,234.50"
parses to 1234.50 (= 123450/100), "$99" to 99, "$0.5" to 1/2, "" and
"abc" to no value. -/
theorem claim_C5 :
    _num "$1,234.50" = some (mkRat 123450 100) ∧
    _num "$99" = some 99 ∧
    _num "$0.5" = some (mkRat 1 2) ∧
    _num "" = none ∧
    _num "abc" = none ∧
    (∀ s : String, _num s = none ↔ ∀ c ∈ cleanOf s, c.isDigit = false) := by
  refine ⟨by decide, by decide, by decide, by decide, by decide, ?_⟩
  intro s
  unfold _num
  by_cases he : s.data.isEmpty
  · rw [if_pos he]
    have hdata : s.data = [] := by simpa using he
    simp [cleanOf, hdata, trimL]
  · rw [if_neg he]
    cases hscan : scanNum (cleanOf s) with
    | none =>
      simp only [hscan, Option.map_none', true_iff]
      exact (scanNum_none_iff (cleanOf s)).mp hscan
    | some p =>
      simp only [hscan, Option.map_some']
      constructor
      · intro h
        cases h
      · intro hall
        have hnone := (scanNum_none_iff (cleanOf s)).mpr hall
        rw [hscan] at hnone
        cases hnone

/-- C5 witness: the no-digit criterion applied at a concrete non-numeric
input. -/
theorem claim_C5_witness : _num "xyz" = none :=
  (claim_C5.2.2.2.2.2 "xyz").mpr (by decide)

/-- C6 counterexample: the claim classifies feature-by-feature without any
input normalisation, so on "#FF0000" (not an rgb form, not one of the
exact hex strings, containing neither the word black nor the word red) it
yields none; the code lower-cases first and returns red. -/
theorem claim_C6_counterexample :
    _color_is_red_or_black "#FF0000" = some "red" ∧
    specColorTable ("#FF0000".data) = none := by decide

/-- C6 amended: the classifier first lower-cases its input and removes
spaces; on the normalised string it is exactly the claimed decision table
(rgb threshold tests with unparseable numeric forms yielding none, exact
hex strings, keyword substrings as a last resort, otherwise none).  The
claimed examples hold, as do the hex and keyword cases and an unparseable
rgb form. -/
theorem claim_C6_amended :
    (∀ s : String,
      _color_is_red_or_black s = specColorTable (normColor s.data)) ∧
    _color_is_red_or_black "rgb(200,10,10)" = some "red" ∧
    _color_is_red_or_black "rgb(5,5,5)" = some "black" ∧
    _color_is_red_or_black "rgb(100,100,100)" = none ∧
    _color_is_red_or_black "#000" = some "black" ∧
    _color_is_red_or_black "#000000" = some "black" ∧
    _color_is_red_or_black "#f00" = some "red" ∧
    _color_is_red_or_black "#ff0000" = some "red" ∧
    _color_is_red_or_black "rgb(foo,bar,baz)" = none ∧
    _color_is_red_or_black "nice black shirt" = some "black" ∧
    _color_is_red_or_black "dark red" = some "red" := by
  refine ⟨fun s => rfl, by decide, by decide, by decide, by decide, by decide,
    by decide, by decide, by decide, by decide, by decide⟩

/-- C3 counterexample: a URL containing "chorizo-" does not always yield
(pieza, 1, 100): the per-kilogram rule is evaluated first, so the URL
"chorizo-1kg" classifies as kg. -/
theorem claim_C3_counterexample :
    hasSubL ("chorizo-".data) ("chorizo-1kg".data) = true ∧
    _guess_units "chorizo-1kg" "" = ("kg", none, none) ∧
    _guess_units "chorizo-1kg" "" ≠ ("pieza", some 1, some 100) := by decide

/-- C3 amended: the heuristic on the case-folded URL + page-text
concatenation equals the ordered first-match-wins decision table of
section 4.6 (the code's extra cerveza-six-pack marker is subsumed by rule
1); earlier rules shadow later ones, so any input whose folded text
contains "six-pack" - even together with "paquete" - classifies as
six-pack, and a URL containing "cerveza-six-pack" always yields
(six-pack, 6, none); the chorizo example holds provided no earlier rule
(six-pack, canned/lata, kg/kilo/per-kg keyword) matches the folded text:
then a URL containing "chorizo-" yields (pieza, 1, 100). -/
theorem claim_C3_amended :
    (∀ url text, _guess_units url text =
      firstMatch specUnitRules ("pieza", some 1, none) (lowcat url text)) ∧
    (∀ url text, hasSubL ("six-pack".data) (lowcat url text) = true →
      hasSubL ("paquete".data) (lowcat url text) = true →
      _guess_units url text = ("six-pack", some 6, none)) ∧
    (∀ url text, hasSubL ("cerveza-six-pack".data) url.data = true →
      _guess_units url text = ("six-pack", some 6, none)) ∧
    (∀ url text, hasSubL ("chorizo-".data) url.data = true →
      unitRule1 (lowcat url text) = false →
      unitRule2 (lowcat url text) = false →
      unitRule3 (lowcat url text) = false →
      _guess_units url text = ("pieza", some 1, some 100)) := by
  refine ⟨?_, ?_, ?_, ?_⟩
  · intro url text
    simp only [_guess_units, firstMatch, specUnitRules, unitRule2, unitRule3]
    rw [rule1_or]
  · intro url text hsix _
    have h1 : unitRule1 (lowcat url text) = true := by
      simp [unitRule1, hsix]
    simp [_guess_units, h1]
  · intro url text h
    have hlow : hasSubL ("cerveza-six-pack".data) (lowcat url text) = true :=
      hasSubL_lowcat_of_url url text (by decide) h
    have h1 : unitRule1 (lowcat url text) = true := by
      simp [unitRule1, hlow]
    simp [_guess_units, h1]
  · intro url text h r1 r2 r3
    have hurl : hasSubL ("chorizo".data) url.data = true :=
      hasSubL_trans (by decide) h
    have hch : hasSubL ("chorizo".data) (lowcat url text) = true :=
      hasSubL_lowcat_of_url url text (by decide) hurl
    simp [_guess_units, r1, r2, r3, hch]

/-- C3 witness: the amended chorizo example at a concrete chorizo URL with
no earlier-rule marker. -/
theorem claim_C3_witness :
    _guess_units "https://x/chorizo-premium" "" = ("pieza", some 1, some 100) :=
  claim_C3_amended.2.2.2 "https://x/chorizo-premium" "" (by decide) (by decide)
    (by decide) (by decide)

/-- C1 counterexample: the code's numeric filter is the Python truthiness
test `if val:`, which also discards a parsed value of 0, so the picker
does not equal the five-step pipeline as stated: a single non-struck red
candidate with text "$0" is picked by the reference pipeline (value 0)
but not by the code. -/
theorem claim_C1_counterexample :
    codePick [{ selector := "sel", text := "$0", color := "rgb(200,10,10)",
                struck := false }] = none ∧
    specPickOrig [{ selector := "sel", text := "$0", color := "rgb(200,10,10)",
                    struck := false }] =
      some ({ selector := "sel", text := "$0", color := "rgb(200,10,10)",
              struck := false }, "red", 0) := by decide

/-- C1 amended: with step 3 discarding candidates whose text yields no
numeric value OR whose parsed value is 0, the picker equals the five-step
reference pipeline on every input list; a struck candidate is never the
pick; and given one non-struck red candidate of value 85 and one
non-struck black candidate of value 90, in either order, the pick's value
is 85. -/
theorem claim_C1_amended :
    (∀ l, codePick l = specPickAmended l) ∧
    (∀ l x, codePick l = some x → x.1.struck = false) ∧
    (∀ c1 c2 : Cand, c1.struck = false → c2.struck = false →
      _color_is_red_or_black c1.color = some "red" →
      _num c1.text = some 85 →
      _color_is_red_or_black c2.color = some "black" →
      _num c2.text = some 90 →
      (codePick [c1, c2]).map (fun x => x.2.2) = some 85 ∧
        (codePick [c2, c1]).map (fun x => x.2.2) = some 85) := by
  refine ⟨?_, ?_, ?_⟩
  · intro l
    unfold codePick specPickAmended pickFrom
    rw [filterStep_eq]
  · intro l x h
    exact (filterStep_mem (codePick_mem h)).1
  · intro c1 c2 h1s h2s h1c h1n h2c h2n
    have h85 : (85 : ℚ) ≠ 0 := by norm_num
    have h90 : (90 : ℚ) ≠ 0 := by norm_num
    have hf : filterStep [c1, c2] = [(c1, "red", (85 : ℚ)), (c2, "black", 90)] := by
      simp [filterStep, h1s, h2s, h1c, h1n, h2c, h2n, h85, h90]
    have hf2 : filterStep [c2, c1] = [(c2, "black", (90 : ℚ)), (c1, "red", 85)] := by
      simp [filterStep, h1s, h2s, h1c, h1n, h2c, h2n, h85, h90]
    have hbr : (("black" : String) == "red") = false := by decide
    have hrb : (("red" : String) == "black") = false := by decide
    constructor
    · simp [codePick, hf, List.filter_cons, hbr, hrb]
    · simp [codePick, hf2, List.filter_cons, hbr, hrb]

/-- C1 witness: the 85/90 priority example at concrete candidates, in both
orders. -/
theorem claim_C1_witness :
    (codePick [{ selector := "a", text := "$85.00", color := "rgb(255,0,0)",
                 struck := false },
               { selector := "b", text := "$90.00", color := "rgb(0,0,0)",
                 struck := false }]).map (fun x => x.2.2) = some 85 ∧
    (codePick [{ selector := "b", text := "$90.00", color := "rgb(0,0,0)",
                 struck := false },
               { selector := "a", text := "$85.00", color := "rgb(255,0,0)",
                 struck := false }]).map (fun x => x.2.2) = some 85 :=
  claim_C1_amended.2.2
    { selector := "a", text := "$85.00", color := "rgb(255,0,0)", struck := false }
    { selector := "b", text := "$90.00", color := "rgb(0,0,0)", struck := false }
    rfl rfl (by decide) (by decide) (by decide) (by decide)

/-- C10: the picker never picks a candidate whose text parses to 0 - every
pick carries the parsed value of its own text and that value is strictly
positive (the parser never returns negatives and the truthiness filter
drops 0); "$0" and "$0.00" do parse (to 0) yet such a candidate is
discarded; consequently whichever price field the assembled record sets
from a pick is strictly positive. -/
theorem claim_C10 :
    (∀ l x, codePick l = some x →
      _num x.1.text = some x.2.2 ∧ 0 < x.2.2) ∧
    _num "$0" = some 0 ∧
    _num "$0.00" = some 0 ∧
    codePick [{ selector := "z", text := "$0.00", color := "rgb(0,0,0)",
                struck := false }] = none ∧
    (∀ url name unit pack wt l x, codePick l = some x →
      (∀ q, (mkResponse url name x.2.2 unit pack wt).price_per_kg = some q →
        0 < q) ∧
      (∀ q, (mkResponse url name x.2.2 unit pack wt).unit_price = some q →
        0 < q)) := by
  have main : ∀ (l : List Cand) x, codePick l = some x →
      _num x.1.text = some x.2.2 ∧ 0 < x.2.2 := by
    intro l x h
    obtain ⟨_, _, hn, hnz⟩ := filterStep_mem (codePick_mem h)
    exact ⟨hn, lt_of_le_of_ne (_num_nonneg hn) (Ne.symm hnz)⟩
  refine ⟨main, by decide, by decide, by decide, ?_⟩
  intro url name unit pack wt l x h
  have hpos := (main l x h).2
  constructor
  · intro q hq
    have hq2 : (if unit == "kg" then some x.2.2 else none) = some q := hq
    by_cases hu : unit == "kg"
    · rw [if_pos hu] at hq2
      simp only [Option.some.injEq] at hq2
      rw [← hq2]
      exact hpos
    · rw [if_neg hu] at hq2
      cases hq2
  · intro q hq
    have hq2 : (if unit == "kg" then none else some x.2.2) = some q := hq
    by_cases hu : unit == "kg"
    · rw [if_pos hu] at hq2
      cases hq2
    · rw [if_neg hu] at hq2
      simp only [Option.some.injEq] at hq2
      rw [← hq2]
      exact hpos

/-- C10 witness: the positivity guarantee applied at a concrete pick. -/
theorem claim_C10_witness :
    _num "$85.00" = some 85 ∧ (0 : ℚ) < 85 :=
  claim_C10.1
    [{ selector := "a", text := "$85.00", color := "rgb(255,0,0)",
       struck := false }]
    ({ selector := "a", text := "$85.00", color := "rgb(255,0,0)",
       struck := false }, "red", 85)
    (by decide)

/-- C2 counterexample: the code's qualifying regex `\$\s*\d` tolerates
whitespace between the currency symbol and the digit, so an element whose
text is "$ 5" (no dollar sign immediately followed by a digit) is still
reported by the locator. -/
theorem claim_C2_counterexample :
    locate (fun s => if s == "s1" then
        [{ text := "$ 5", color := "rgb(0,0,0)", tdec := "none" }] else [])
      ["s1"] =
      [{ selector := "s1", text := "$ 5", color := "rgb(0,0,0)",
         struck := false }] ∧
    dollarImmediate ("$ 5".data) = false := by decide

/-- C2 amended: with the qualifying test "currency symbol, optional
whitespace, then a digit", the locator returns the collected elements of
exactly the first selector in priority order yielding at least one
qualifying element (this holds in particular for PRICE_SELECTORS), it
never falls through once a selector qualifies, every reported element
passes the qualifying test on its own text, and any text with a currency
symbol immediately followed by a digit qualifies a fortiori. -/
theorem claim_C2_amended :
    (∀ page sels, locate page sels = specLocate page sels) ∧
    (∀ page, locate page PRICE_SELECTORS = specLocate page PRICE_SELECTORS) ∧
    (∀ page sels c, c ∈ locate page sels →
      hasDollarDigits c.text.data = true) ∧
    (∀ t, dollarImmediate t = true → hasDollarDigits t = true) :=
  ⟨locate_eq_spec, fun page => locate_eq_spec page PRICE_SELECTORS,
    fun _ _ _ h => locate_mem h, dollarImmediate_implies⟩

/-- C2 witness: the qualifying test at a concrete immediate dollar-digit
text. -/
theorem claim_C2_witness : hasDollarDigits ("$5".data) = true :=
  claim_C2_amended.2.2.2 ("$5".data) (by decide)

/-- Exactly one of the two price fields is set by the assembler, and which
one is determined by the unit label. -/
theorem mkResponse_inv (url : String) (name : Option String) (v : ℚ)
    (unit : String) (pack wt : Option Nat) :
    respInv (mkResponse url name v unit pack wt) := by
  unfold respInv mkResponse
  by_cases hu : unit == "kg"
  · have he : unit = "kg" := by simpa using hu
    simp [hu, he]
  · have he : ¬unit = "kg" := by simpa using hu
    simp [hu, he]

/-- C7: if no polling attempt ever yields a pick, the controller (a total
function, hence no infinite loop) ends in TimedOut at a clock value at or
after the recorded deadline start + 18000 ms; whenever an attempt yields a
pick before the deadline, the loop stops immediately in Found with that
value; and on such a full timeout the orchestrator reports HTTP 500 with
the fixed PriceNotFound diagnostic, leaving the cache unchanged. -/
theorem claim_C7 :
    (∀ att adv start, (∀ i v, att i ≠ Except.ok (some v)) →
      ∃ t, pollE att adv (start + 18000) 0 start = PollOutcome.TimedOut t ∧
        start + 18000 ≤ t) ∧
    (∀ att adv d i now v, now < d → att i = Except.ok (some v) →
      pollE att adv d i now = PollOutcome.Found v) ∧
    (∀ cache url w, lookupA cache url = none → w.navFails = false →
      (∀ i v, attFun w i ≠ Except.ok (some v)) →
      getPriceModel cache url w = (Except.error (500, notFoundMsg), cache)) := by
  refine ⟨?_, ?_, ?_⟩
  · intro att adv start h
    exact pollE_timeout att adv (start + 18000) h 0 start
  · intro att adv d i now v hlt hatt
    rw [pollE_eq, if_pos hlt, hatt]
  · intro cache url w hl hn hatt
    obtain ⟨t, ht, _⟩ :=
      pollE_timeout (attFun w) w.adv (w.startTime + 18000) hatt 0 w.startTime
    simp [getPriceModel, hl, hn, ht]

/-- C7 witness: a run whose attempts never pick ends in TimedOut at or
after the deadline. -/
theorem claim_C7_witness :
    ∃ t, pollE (fun _ => Except.ok none) (fun _ => 0) (0 + 18000) 0 0 =
      PollOutcome.TimedOut t ∧ 0 + 18000 ≤ t :=
  claim_C7.1 (fun _ => Except.ok none) (fun _ => 0) 0
    (fun _ _ h => Option.noConfusion (Except.ok.inj h))

/-- C8: an exception in a polling attempt before the deadline is
swallowed: the loop continues at the next attempt index after the fixed
350 ms wait (plus that attempt's duration), exactly as a no-pick attempt
does; globally, the controller's outcome is unchanged when every
exception is replaced by "no pick", so no per-attempt exception ever
aborts the loop or propagates (the controller is a total function into
the Found/TimedOut outcomes). -/
theorem claim_C8 :
    (∀ att adv d i now e, now < d → att i = Except.error e →
      pollE att adv d i now = pollE att adv d (i + 1) (now + 350 + adv i)) ∧
    (∀ att adv d i now, pollE att adv d i now =
      pollE (fun j => Except.ok (exSquash (att j))) adv d i now) := by
  refine ⟨?_, pollE_squash⟩
  intro att adv d i now e hlt hatt
  rw [pollE_eq, if_pos hlt, hatt]

/-- C8 witness: the swallow-and-continue step at a concrete erroring
attempt. -/
theorem claim_C8_witness :
    pollE (fun _ => Except.error ()) (fun _ => 0) 1000 0 0 =
      pollE (fun _ => Except.error ()) (fun _ => 0) 1000 (0 + 1)
        (0 + 350 + (fun _ => 0) 0) :=
  claim_C8.1 (fun _ => Except.error ()) (fun _ => 0) 1000 0 0 ()
    (by omega) rfl

/-- C9: the cache is written only on full success - every request ending
in an error (502 LoadFailure or 500 PriceNotFound) leaves the cache
unchanged, and whenever a record is returned to the client it is stored
under its URL key (a fresh success prepends exactly the (url, record)
entry; a cache hit leaves the cache as it was). -/
theorem claim_C9 : ∀ cache url w,
    (∀ e, (getPriceModel cache url w).1 = Except.error e →
      (getPriceModel cache url w).2 = cache) ∧
    (∀ r, (getPriceModel cache url w).1 = Except.ok r →
      lookupA (getPriceModel cache url w).2 url = some r ∧
      ((getPriceModel cache url w).2 = cache ∨
        (getPriceModel cache url w).2 = (url, r) :: cache)) := by
  intro cache url w
  cases hl : lookupA cache url with
  | some r0 =>
    have hg : getPriceModel cache url w = (Except.ok r0, cache) := by
      simp [getPriceModel, hl]
    rw [hg]
    refine ⟨fun e he => rfl, fun r hr => ?_⟩
    simp only [Except.ok.injEq] at hr
    subst hr
    exact ⟨hl, Or.inl rfl⟩
  | none =>
    by_cases hn : w.navFails
    · have hg : getPriceModel cache url w =
          (Except.error (502, "No se pudo cargar " ++ url ++ ": " ++ w.navErr),
            cache) := by
        simp [getPriceModel, hl, hn]
      rw [hg]
      refine ⟨fun e he => rfl, fun r hr => by cases hr⟩
    · cases hp : pollE (attFun w) w.adv (w.startTime + 18000) 0 w.startTime with
      | TimedOut t =>
        have hg : getPriceModel cache url w =
            (Except.error (500, notFoundMsg), cache) := by
          simp [getPriceModel, hl, hn, hp]
        rw [hg]
        refine ⟨fun e he => rfl, fun r hr => by cases hr⟩
      | Found v =>
        have hg : getPriceModel cache url w =
            (Except.ok (successResp url w v),
              (url, successResp url w v) :: cache) := by
          simp [getPriceModel, hl, hn, hp]
        rw [hg]
        refine ⟨fun e he => (nomatch he), fun r hr => ?_⟩
        simp only [Except.ok.injEq] at hr
        subst hr
        exact ⟨by simp [lookupA], Or.inr rfl⟩

/-- C9 witness: a load failure leaves the cache unchanged. -/
theorem claim_C9_witness :
    (getPriceModel [] "u"
      { navFails := true, navErr := "boom", name := none,
        attempts := fun _ => Except.ok [], adv := fun _ => 0,
        startTime := 0, pageText := none }).2 = ([] : List (String × PriceResp)) :=
  (claim_C9 [] "u"
      { navFails := true, navErr := "boom", name := none,
        attempts := fun _ => Except.ok [], adv := fun _ => 0,
        startTime := 0, pageText := none }).1
    (502, "No se pudo cargar u: boom") rfl

/-- C4: the assembler sets price_per_kg exactly when the unit label is kg
and unit_price otherwise, the set field carrying the picked value; hence
exactly one of the two fields is set (respInv), and every successful
response of the orchestrator satisfies this invariant (cache hits do when
every cached record - itself produced by this same path - does). -/
theorem claim_C4 :
    (∀ url name v unit pack wt,
      (mkResponse url name v unit pack wt).price_per_kg =
        (if unit == "kg" then some v else none) ∧
      (mkResponse url name v unit pack wt).unit_price =
        (if unit == "kg" then none else some v) ∧
      respInv (mkResponse url name v unit pack wt)) ∧
    (∀ cache url w, (∀ p ∈ cache, respInv p.2) →
      ∀ r, (getPriceModel cache url w).1 = Except.ok r → respInv r) := by
  refine ⟨fun url name v unit pack wt =>
    ⟨rfl, rfl, mkResponse_inv url name v unit pack wt⟩, ?_⟩
  intro cache url w hcache r hr
  cases hl : lookupA cache url with
  | some r0 =>
    have hg : (getPriceModel cache url w).1 = Except.ok r0 := by
      simp [getPriceModel, hl]
    rw [hg] at hr
    simp only [Except.ok.injEq] at hr
    subst hr
    obtain ⟨k, hk⟩ := lookupA_mem hl
    exact hcache (k, r0) hk
  | none =>
    by_cases hn : w.navFails
    · have hg : (getPriceModel cache url w).1 =
          Except.error (502, "No se pudo cargar " ++ url ++ ": " ++ w.navErr) := by
        simp [getPriceModel, hl, hn]
      rw [hg] at hr
      cases hr
    · cases hp : pollE (attFun w) w.adv (w.startTime + 18000) 0 w.startTime with
      | TimedOut t =>
        have hg : (getPriceModel cache url w).1 =
            Except.error (500, notFoundMsg) := by
          simp [getPriceModel, hl, hn, hp]
        rw [hg] at hr
        cases hr
      | Found v =>
        have hg : (getPriceModel cache url w).1 =
            Except.ok (successResp url w v) := by
          simp [getPriceModel, hl, hn, hp]
        rw [hg] at hr
        simp only [Except.ok.injEq] at hr
        subst hr
        unfold successResp
        exact mkResponse_inv url w.name v _ _ _

/-- C4 witness: the orchestrator invariant at a concrete successful run
(empty cache, one red candidate of value 85, unit pieza). -/
theorem claim_C4_witness :
    respInv (mkResponse "u" none 85 "pieza" (some 1) none) :=
  claim_C4.2 [] "u"
    { navFails := false, navErr := "", name := none,
      attempts := fun _ => Except.ok
        [{ selector := "a", text := "$85.00", color := "rgb(255,0,0)",
           struck := false }],
      adv := fun _ => 0, startTime := 0, pageText := some "" }
    (by simp)
    (mkResponse "u" none 85 "pieza" (some 1) none)
    rfl
